import Mathlib

/-!
Shallow embedding of the document-loading and text-splitting core of the
repository (`02_Embeddings_and_RAG/aimakerspace/text_utils.py`), together
with theorems settling the behavioural claims about it.

Python strings are modelled as Lean `String` (a packed `List Char`, i.e. a
sequence of Unicode code points, matching Python's code-point indexing);
the character-level splitter works directly on `List Char`.  Python's
unbounded `int` is modelled as `Int`.  Exceptions are modelled by an
explicit error type returned through `Except`.
-/

/-- The Python exceptions the modelled code can raise.  `assertionError`
models a failed `assert`, `valueError` a raised `ValueError`, and
`fileNotFound` the builtin `FileNotFoundError` produced by `open` on a
missing path (source: `text_utils.py`). -/
inductive PyError where
  | assertionError (msg : String)
  | valueError (msg : String)
  | fileNotFound (path : String)
deriving DecidableEq, Repr

/-- `range(0, stop, step)` for a positive `step`: the offsets
`0, step, 2*step, ...` strictly below `stop`.  (Python raises on
`step = 0`; the splitter's constructor guarantees `step > 0`, so that
case is never reached by a constructed splitter.) -/
def pyRange (stop step : Nat) : List Nat :=
  (List.range ((stop + step - 1) / step)).map (fun k => k * step)

/-- `CharacterTextSplitter`'s configuration fields, as stored unchanged by
`__init__` (source lines 44-54). -/
structure CharacterTextSplitter where
  chunk_size : Int
  chunk_overlap : Int
deriving DecidableEq, Repr

/-- `CharacterTextSplitter.__init__` (source lines 44-54): `assert
chunk_size > chunk_overlap` and store the two fields.  A failed Python
`assert` raises `AssertionError` with the given message. -/
def CharacterTextSplitter.mk? (chunk_size chunk_overlap : Int) :
    Except PyError CharacterTextSplitter :=
  if chunk_size > chunk_overlap then
    .ok ⟨chunk_size, chunk_overlap⟩
  else
    .error (.assertionError "Chunk size must be greater than chunk overlap")

/-- The spec's `InvalidConfigurationError`, as realised by the code: the
`AssertionError` raised by the constructor's `assert`. -/
def InvalidConfigurationError : PyError :=
  .assertionError "Chunk size must be greater than chunk overlap"

/-- `CharacterTextSplitter.split` (source lines 56-60):
`for i in range(0, len(text), self.chunk_size - self.chunk_overlap):
chunks.append(text[i : i + self.chunk_size])`.  The slice
`text[i : i + chunk_size]` for `i ≥ 0` and `chunk_size ≥ 0` is
`(text.drop i).take chunk_size` (Python slices clip at the text's end).
`Int.toNat` mirrors the nonnegative regime every claim quantifies over;
a negative `chunk_size` (accepted by the constructor when the overlap is
even more negative) would engage Python's negative-index slicing, which
no claim touches and which is not modelled. -/
def CharacterTextSplitter.split (sp : CharacterTextSplitter)
    (text : List Char) : List (List Char) :=
  (pyRange text.length (sp.chunk_size - sp.chunk_overlap).toNat).map
    (fun i => (text.drop i).take sp.chunk_size.toNat)

/-- `CharacterTextSplitter.split_texts` (source lines 62-66): extend an
accumulator with `split(text)` for each input text in order. -/
def CharacterTextSplitter.split_texts (sp : CharacterTextSplitter)
    (texts : List (List Char)) : List (List Char) :=
  texts.foldl (fun chunks t => chunks ++ sp.split t) []

/-- Rendering of the spec's description of `split` ("emit the substring
`[offset, offset + chunk_size)` clipped to the text's end ... for offsets
`0, stride, 2*stride, ...` strictly less than the length of the text"):
the offsets are exactly the multiples of the stride below the length. -/
def specSplit (cs co : Nat) (text : List Char) : List (List Char) :=
  ((List.range text.length).filter (fun i => i % (cs - co) = 0)).map
    (fun i => (text.drop i).take cs)

/-- Per-document metadata record appended by `EnhancedTextFileLoader`
(`self.metadata.append({...})`); the Python dict's `source` tag is the
constructor, and the kind-specific dict keys are the fields.  File sizes
(`os.path.getsize`) are modelled as the stored content's length for text
files and as the size recorded in the filesystem model for PDFs. -/
inductive Metadata where
  | txt (file_path : String) (encoding : String) (file_size : Nat)
  | pdf (file_path : String) (num_pages : Nat) (file_size : Nat)
  | youtube (video_id : String) (url : String) (duration : Nat)
deriving DecidableEq, Repr

/-- Abstract model of the filesystem and the external services the
loaders consult.  `files` holds the `.txt`-readable files as
`(full path, content)` in filesystem enumeration order (so it also fixes
the order `os.walk` yields them in); `dirs` the directory paths; `pdfs`
maps a path to the file's byte size and the per-page texts PyPDF2's
`extract_text` returns (`none` models a page whose extraction raises);
`transcripts` maps a video id to the transcript entry texts the
transcript service returns. -/
structure FS where
  dirs : List String
  files : List (String × String)
  pdfs : List (String × Nat × List (Option String))
  transcripts : List (String × List String)
deriving Repr

/-- `os.path.isdir`. -/
def FS.isdir (fs : FS) (p : String) : Bool := fs.dirs.contains p

/-- `os.path.isfile`. -/
def FS.isfile (fs : FS) (p : String) : Bool := (fs.files.lookup p).isSome

/-- `open(p).read()`: the content, or the builtin `FileNotFoundError`. -/
def FS.read (fs : FS) (p : String) : Except PyError String :=
  match fs.files.lookup p with
  | some content => .ok content
  | none => .error (.fileNotFound p)

/-- Is `p` inside the directory tree rooted at `root`?  (Models which
files `os.walk(root)` reaches; paths are joined with `/`.) -/
def underDir (root p : String) : Bool :=
  (root ++ "/").toList.isPrefixOf p.toList

/-- The files `os.walk(root)` enumerates (already joined with their
directory), with contents, in filesystem enumeration order. -/
def FS.walkFiles (fs : FS) (root : String) : List (String × String) :=
  fs.files.filter (fun pc => underDir root pc.1)

/-- `str.endswith`. -/
def strEndsWith (s suffix : String) : Bool :=
  suffix.toList.isSuffixOf s.toList

/-- `str.lower`, modelled for the ASCII range. -/
def strLower (s : String) : String := ⟨s.toList.map Char.toLower⟩

/-- Does `pat` occur as a contiguous run inside `s`? -/
def hasSubChars (pat : List Char) : List Char → Bool
  | [] => pat.isEmpty
  | c :: cs => pat.isPrefixOf (c :: cs) || hasSubChars pat cs

/-- Substring containment, modelling `re.search` of a literal pattern. -/
def strHasSub (s pat : String) : Bool := hasSubChars pat.toList s.toList

/-- `TextFileLoader.load_directory` (source lines 29-36): walk the
directory and append the content of every file ending in `.txt`, in
enumeration order. -/
def TextFileLoader.load_directory (fs : FS) (path : String) : List String :=
  (fs.walkFiles path).foldl
    (fun docs pc => if strEndsWith pc.1 ".txt" then docs ++ [pc.2] else docs) []

/-- `TextFileLoader.load` + `load_file` + `load_documents` (source lines
15-27, 38-40): dispatch on the path's shape and return the accumulated
documents. -/
def TextFileLoader.load (fs : FS) (path : String) :
    Except PyError (List String) :=
  if fs.isdir path then .ok (TextFileLoader.load_directory fs path)
  else if fs.isfile path && strEndsWith path ".txt" then
    match fs.read path with
    | .ok content => .ok [content]
    | .error e => .error e
  else
    .error (.valueError
      "Provided path is neither a valid directory nor a .txt file.")

/-- The spec's reading of directory loading: one document per `.txt`
file found by recursive enumeration, in enumeration order. -/
def specDirectoryDocs (fs : FS) (root : String) : List String :=
  ((fs.walkFiles root).filter (fun pc => strEndsWith pc.1 ".txt")).map Prod.snd

/-- `EnhancedTextFileLoader._is_youtube_url` (source lines 103-111): the
four regex patterns are literal strings (the escapes `\.` and `\?` match
the characters themselves), so the check is substring containment. -/
def isYoutubeUrl (url : String) : Bool :=
  strHasSub url "youtube.com/watch?v=" || strHasSub url "youtu.be/"
    || strHasSub url "youtube.com/embed/" || strHasSub url "youtube.com/v/"

/-- The characters after the first occurrence of `pat`, if any. -/
def afterMarker (pat : List Char) : List Char → Option (List Char)
  | [] => if pat.isEmpty then some [] else none
  | c :: cs =>
    if pat.isPrefixOf (c :: cs) then some ((c :: cs).drop pat.length)
    else afterMarker pat cs

/-- One capture-group step of `_extract_video_id`'s regexes, e.g.
`youtube\.com/watch\?v=([^&]+)`: the non-empty run of characters other
than `stop` following the literal marker.  (Modelled at the first
occurrence of the marker; no claim exercises URLs where `re.search`
would backtrack to a later occurrence.) -/
def captureAfter (url marker : String) (stop : Char) : Option String :=
  match afterMarker marker.toList url.toList with
  | none => none
  | some rest =>
    let cap := rest.takeWhile (fun c => c ≠ stop)
    if cap.isEmpty then none else some ⟨cap⟩

/-- `EnhancedTextFileLoader._extract_video_id` (source lines 113-127):
try the four URL shapes in order. -/
def extractVideoId (url : String) : Option String :=
  match captureAfter url "youtube.com/watch?v=" '&' with
  | some v => some v
  | none =>
    match captureAfter url "youtu.be/" '?' with
    | some v => some v
    | none =>
      match captureAfter url "youtube.com/embed/" '?' with
      | some v => some v
      | none => captureAfter url "youtube.com/v/" '?'

/-- The whitespace characters Python's `str.strip`/`str.isspace` use
(ASCII range). -/
def pyIsSpace (c : Char) : Bool :=
  c = ' ' || c = '\t' || c = '\n' || c = '\r' || c = '\x0b' || c = '\x0c'

/-- Truthiness of `s.strip()`: does `s` contain a non-whitespace
character? -/
def stripNonempty (s : String) : Bool := s.toList.any (fun c => !pyIsSpace c)

/-- `page_text.replace('\x00', '').replace('�', '')`. -/
def cleanText (s : String) : String :=
  ⟨s.toList.filter (fun c => c ≠ '\x00' && c ≠ '�')⟩

/-- `c.isprintable() or c.isspace()`, modelled for the ASCII range. -/
def pyPrintableOrSpace (c : Char) : Bool :=
  (0x20 ≤ c.toNat && c.toNat < 0x7f) || pyIsSpace c

/-- `c.isalnum() or c in '+/='` (ASCII model). -/
def pyBase64Char (c : Char) : Bool :=
  c.isAlphanum || c = '+' || c = '/' || c = '='

/-- `EnhancedTextFileLoader._is_readable_text` (source lines 196-210)
with the default `min_readable_ratio = 0.7`.  Python compares the ratios
in floating point; the comparisons are modelled as exact rational
(cross-multiplied) comparisons, which agree except possibly on
floating-point rounding at the exact thresholds, which no claim
touches. -/
def isReadableText (text : String) : Bool :=
  let cs := text.toList
  if cs.length < 10 then false
  else
    let printable := (cs.filter pyPrintableOrSpace).length
    let b64 := (cs.filter pyBase64Char).length
    if decide (cs.length * 9 < b64 * 10) && !((cs.take 100).contains ' ') then
      false
    else decide (cs.length * 7 ≤ printable * 10)

/-- The text one page contributes inside `_load_pdf`'s loop (source lines
158-176): an extraction failure (`none`) or an empty/whitespace-only or
unreadable page contributes nothing (skipped with a printed warning);
a retained page contributes its page marker and cleaned text. -/
def pdfPageFragment (pageNum : Nat) (page : Option String) : String :=
  match page with
  | none => ""
  | some page_text =>
    if stripNonempty page_text then
      if isReadableText (cleanText page_text) then
        "\n--- Page " ++ toString pageNum ++ " ---\n"
          ++ cleanText page_text ++ "\n"
      else ""
    else ""

/-- The `text` accumulated over all pages by `_load_pdf`, starting at the
1-based page number of the first page in the list. -/
def pdfText : Nat → List (Option String) → String
  | _, [] => ""
  | n, p :: ps => pdfPageFragment n p ++ pdfText (n + 1) ps

/-- `EnhancedTextFileLoader._load_pdf` (source lines 150-194).  The
`ValueError("No readable text could be extracted from the PDF")` raised
inside the `try` is caught by its own generic `except Exception` clause
and re-raised as `ValueError("Failed to load PDF: ...")`; a
`FileNotFoundError` from `open` is caught and re-raised as
`ValueError("PDF file not found: ...")`. -/
def EnhancedTextFileLoader.loadPdf (fs : FS) (path : String) :
    Except PyError (List String × List Metadata) :=
  match fs.pdfs.lookup path with
  | none => .error (.valueError ("PDF file not found: " ++ path))
  | some (size, pages) =>
    let text := pdfText 1 pages
    if stripNonempty text then
      .ok ([text], [.pdf path pages.length size])
    else
      .error (.valueError
        "Failed to load PDF: No readable text could be extracted from the PDF")

/-- The spec's `NoReadableTextError`, as realised by the code: the
wrapped `ValueError` `_load_pdf` raises when no page contributed any
text. -/
def NoReadableTextError : PyError :=
  .valueError
    "Failed to load PDF: No readable text could be extracted from the PDF"

/-- `EnhancedTextFileLoader._load_txt` (source lines 212-230): on a
missing path the builtin `FileNotFoundError` is caught and re-raised as
`ValueError("Text file not found: ...")`. -/
def EnhancedTextFileLoader.loadTxt (fs : FS) (path encoding : String) :
    Except PyError (List String × List Metadata) :=
  match fs.files.lookup path with
  | some content => .ok ([content], [.txt path encoding content.length])
  | none => .error (.valueError ("Text file not found: " ++ path))

/-- `" ".join(entry texts)`. -/
def joinSpace (entries : List String) : String :=
  ⟨List.intercalate [' '] (entries.map String.data)⟩

/-- `EnhancedTextFileLoader._load_youtube_transcript` (source lines
129-148).  Both the id-extraction `ValueError` and any transcript-service
exception are caught and re-raised as
`ValueError("Failed to load YouTube transcript: " + str(e))`; the
service's exception text is owned by the external service and modelled
opaquely as the video id. -/
def EnhancedTextFileLoader.loadYoutube (fs : FS) (url : String) :
    Except PyError (List String × List Metadata) :=
  match extractVideoId url with
  | none =>
    .error (.valueError
      ("Failed to load YouTube transcript: Could not extract video ID from URL: "
        ++ url))
  | some vid =>
    match fs.transcripts.lookup vid with
    | none =>
      .error (.valueError ("Failed to load YouTube transcript: " ++ vid))
    | some entries =>
      .ok ([joinSpace entries], [.youtube vid url entries.length])

/-- `EnhancedTextFileLoader.load_documents` (source lines 92-101):
dispatch on the input's shape.  A directory path matches none of the
branches and falls through to `ValueError("Unsupported file type: ...")`. -/
def EnhancedTextFileLoader.load_documents (fs : FS) (path_or_url : String)
    (encoding : String) : Except PyError (List String × List Metadata) :=
  if isYoutubeUrl path_or_url then
    EnhancedTextFileLoader.loadYoutube fs path_or_url
  else if strEndsWith (strLower path_or_url) ".pdf" then
    EnhancedTextFileLoader.loadPdf fs path_or_url
  else if strEndsWith (strLower path_or_url) ".txt" then
    EnhancedTextFileLoader.loadTxt fs path_or_url encoding
  else
    .error (.valueError ("Unsupported file type: " ++ path_or_url))

/-- Spec-side hypothesis of claim C8: every page of the PDF extracts to
empty or whitespace-only text (an extraction failure is vacuously
allowed). -/
def allPagesBlank (pages : List (Option String)) : Bool :=
  pages.all (fun p =>
    match p with
    | none => true
    | some s => s.toList.all pyIsSpace)

/-- Spec-side hypothesis of claim C10: every page of the PDF extracts to
text of fewer than 10 characters. -/
def allPagesShort (pages : List (Option String)) : Bool :=
  pages.all (fun p =>
    match p with
    | none => true
    | some s => decide (s.length < 10))

/-- Spec side of claim C6: did loading terminate in a raised builtin
`FileNotFoundError`? -/
def raisedFileNotFound {α : Type} : Except PyError α → Bool
  | .error (.fileNotFound _) => true
  | _ => false


theorem pyRange_nil (step : Nat) : pyRange 0 step = [] := by
  rcases step with _ | s
  · simp [pyRange]
  · simp [pyRange, Nat.succ_sub_one, Nat.div_eq_of_lt (Nat.lt_succ_self s)]

/-- Membership-count bridge for `pyRange`: `k < ⌈n / s⌉` exactly when
`k * s < n`, for positive `s`. -/
theorem lt_ceil_iff (n s k : Nat) (hs : 0 < s) :
    k < (n + s - 1) / s ↔ k * s < n := by
  have hdm : s * ((n + s - 1) / s) + (n + s - 1) % s = n + s - 1 :=
    Nat.div_add_mod _ _
  have hmod : (n + s - 1) % s < s := Nat.mod_lt _ hs
  constructor
  · intro hk
    have h1 : s * (k + 1) ≤ s * ((n + s - 1) / s) :=
      Nat.mul_le_mul (Nat.le_refl s) (Nat.succ_le_of_lt hk)
    have h2 : s * (k + 1) = s * k + s := by ring
    have h3 : s * k = k * s := Nat.mul_comm s k
    omega
  · intro hk
    by_contra hnot
    push_neg at hnot
    have h1 : s * ((n + s - 1) / s) ≤ s * k :=
      Nat.mul_le_mul (Nat.le_refl s) hnot
    have h3 : s * k = k * s := Nat.mul_comm s k
    omega

theorem ceil_eq_of_dvd (s q : Nat) (hs : 0 < s) :
    (s * q + s - 1) / s = q := by
  have he : s * q + s - 1 = s * q + (s - 1) := by omega
  rw [he, Nat.mul_add_div hs, Nat.div_eq_of_lt (by omega)]
  omega

theorem ceil_succ_of_dvd (s q : Nat) (hs : 0 < s) :
    (s * q + 1 + s - 1) / s = q + 1 := by
  have he : s * q + 1 + s - 1 = s * q + s := by omega
  rw [he, Nat.mul_add_div hs, Nat.div_self hs]

theorem ceil_eq_of_mod_pos (s q r : Nat) (hs : 0 < s) (hr1 : 1 ≤ r)
    (hr2 : r < s) : (s * q + r + s - 1) / s = q + 1 := by
  have he : s * q + r + s - 1 = s * q + (r - 1 + s) := by omega
  rw [he, Nat.mul_add_div hs, Nat.add_div_right _ hs,
    Nat.div_eq_of_lt (by omega)]

theorem ceil_succ_of_mod_pos (s q r : Nat) (hs : 0 < s) (hr2 : r < s) :
    (s * q + r + 1 + s - 1) / s = q + 1 := by
  have he : s * q + r + 1 + s - 1 = s * q + (r + s) := by omega
  rw [he, Nat.mul_add_div hs, Nat.add_div_right _ hs,
    Nat.div_eq_of_lt hr2]

/-- The offsets Python's `range(0, n, s)` walks are exactly the multiples
of the stride `s` below `n`, in increasing order. -/
theorem range_filter_eq_pyRange (s : Nat) (hs : 0 < s) (n : Nat) :
    (List.range n).filter (fun i => i % s = 0) = pyRange n s := by
  induction n with
  | zero => simp [pyRange_nil]
  | succ n ih =>
    rw [List.range_succ, List.filter_append, ih]
    have hdm : s * (n / s) + n % s = n := Nat.div_add_mod n s
    by_cases h : n % s = 0
    · have hq : n = s * (n / s) := by omega
      have hceil : (n + s - 1) / s = n / s := by
        conv_lhs => rw [hq]
        exact ceil_eq_of_dvd s (n / s) hs
      have hceil1 : (n + 1 + s - 1) / s = n / s + 1 := by
        conv_lhs => rw [hq]
        exact ceil_succ_of_dvd s (n / s) hs
      rw [show List.filter (fun i => decide (i % s = 0)) [n] = [n] by
        simp [List.filter, h]]
      rw [pyRange, pyRange, hceil, hceil1, List.range_succ, List.map_append]
      simp [Nat.mul_comm, ← hq]
    · have hq : n = s * (n / s) + n % s := by omega
      have hceil : (n + s - 1) / s = n / s + 1 := by
        conv_lhs => rw [hq]
        exact ceil_eq_of_mod_pos s (n / s) (n % s) hs (by omega)
          (Nat.mod_lt n hs)
      have hceil1 : (n + 1 + s - 1) / s = n / s + 1 := by
        conv_lhs => rw [hq]
        exact ceil_succ_of_mod_pos s (n / s) (n % s) hs (Nat.mod_lt n hs)
      rw [show List.filter (fun i => decide (i % s = 0)) [n] = [] by
        simp [List.filter, h]]
      rw [pyRange, pyRange, hceil, hceil1, List.append_nil]

theorem split_nil (sp : CharacterTextSplitter) : sp.split [] = [] := by
  simp [CharacterTextSplitter.split, pyRange_nil]

/-- C1: for every text and every valid configuration (`chunk_size`
positive, `0 ≤ chunk_overlap < chunk_size`), `split(text)` returns exactly
the substrings `text[offset, offset + chunk_size)` clipped to the end of
the text, for the offsets `0, stride, 2*stride, ...` strictly below the
text's length, where `stride = chunk_size - chunk_overlap`; in particular
`split_many(["abcdefghij"])` with `chunk_size = 4`, `chunk_overlap = 1`
returns `["abcd","defg","ghij","j"]`, and `split("")` is empty. -/
theorem split_matches_spec_description :
    (∀ (cs co : Int) (text : List Char), 0 ≤ co → co < cs →
      CharacterTextSplitter.split ⟨cs, co⟩ text = specSplit cs.toNat co.toNat text)
    ∧ CharacterTextSplitter.split_texts ⟨4, 1⟩ ["abcdefghij".toList]
        = ["abcd".toList, "defg".toList, "ghij".toList, "j".toList]
    ∧ (∀ sp : CharacterTextSplitter, sp.split [] = []) := by
  refine ⟨?_, by decide, split_nil⟩
  intro cs co text hco hlt
  have hs : (cs - co).toNat = cs.toNat - co.toNat := by omega
  have hpos : 0 < cs.toNat - co.toNat := by omega
  simp only [CharacterTextSplitter.split, specSplit]
  rw [hs, ← range_filter_eq_pyRange _ hpos]

/-- Witness for `split_matches_spec_description` at
`chunk_size = 4, chunk_overlap = 1, text = "ab"`. -/
theorem split_matches_spec_description_witness :
    (0 ≤ (1 : Int) ∧ (1 : Int) < 4)
    ∧ CharacterTextSplitter.split ⟨4, 1⟩ "ab".toList
        = specSplit (4 : Int).toNat (1 : Int).toNat "ab".toList :=
  ⟨⟨by decide, by decide⟩,
    split_matches_spec_description.1 4 1 "ab".toList (by decide) (by decide)⟩

/-- C2: for every text and valid configuration, every character index of
the text lies inside at least one returned chunk: chunk `k` starts at
offset `k * stride`, spans at most `chunk_size` characters, and holds the
text's character at index `i` at its position `i - k * stride`. -/
theorem split_covers_every_index :
    ∀ (cs co : Int), 0 ≤ co → co < cs →
    ∀ (text : List Char) (i : Nat), i < text.length →
    ∃ (k : Nat) (ch : List Char), (CharacterTextSplitter.split ⟨cs, co⟩ text)[k]? = some ch
      ∧ k * (cs - co).toNat ≤ i
      ∧ i < k * (cs - co).toNat + cs.toNat
      ∧ ch[i - k * (cs - co).toNat]? = text[i]? := by
  intro cs co hco hlt text i hi
  set s : Nat := (cs - co).toNat with hsdef
  have hs : 0 < s := by omega
  have hscs : s ≤ cs.toNat := by omega
  have hcs : 0 < cs.toNat := by omega
  refine ⟨i / s, (text.drop (i / s * s)).take cs.toNat, ?_, ?_, ?_, ?_⟩
  · have hks : i / s * s < text.length :=
      Nat.lt_of_le_of_lt (Nat.div_mul_le_self i s) hi
    have hkm : i / s < (text.length + s - 1) / s :=
      (lt_ceil_iff text.length s (i / s) hs).mpr hks
    simp only [CharacterTextSplitter.split, pyRange, List.map_map]
    rw [List.getElem?_map, List.getElem?_range hkm]
    rfl
  · exact Nat.div_mul_le_self i s
  · have hdm : s * (i / s) + i % s = i := Nat.div_add_mod i s
    have hmod : i % s < s := Nat.mod_lt i hs
    have hcomm : s * (i / s) = i / s * s := Nat.mul_comm s (i / s)
    omega
  · have hdm : s * (i / s) + i % s = i := Nat.div_add_mod i s
    have hmod : i % s < s := Nat.mod_lt i hs
    have hcomm : s * (i / s) = i / s * s := Nat.mul_comm s (i / s)
    rw [List.getElem?_take, if_pos (by omega), List.getElem?_drop]
    congr 1
    omega

/-- Witness for `split_covers_every_index` at
`chunk_size = 4, chunk_overlap = 1, text = "abcdefghij", i = 5`. -/
theorem split_covers_every_index_witness :
    (0 ≤ (1 : Int) ∧ (1 : Int) < 4 ∧ 5 < "abcdefghij".toList.length)
    ∧ ∃ (k : Nat) (ch : List Char), (CharacterTextSplitter.split ⟨4, 1⟩ "abcdefghij".toList)[k]? = some ch
      ∧ k * ((4 : Int) - 1).toNat ≤ 5
      ∧ 5 < k * ((4 : Int) - 1).toNat + (4 : Int).toNat
      ∧ ch[5 - k * ((4 : Int) - 1).toNat]? = "abcdefghij".toList[5]? :=
  ⟨⟨by decide, by decide, by decide⟩,
    split_covers_every_index 4 1 (by decide) (by decide)
      "abcdefghij".toList 5 (by decide)⟩

/-- C3 counterexample: with the valid configuration `chunk_size = 4`,
`chunk_overlap = 3` and the non-empty text `"abc"` of length `3 ≤ 4`,
`split` returns three chunks, not one: the loop advances by the stride
`1` and keeps emitting while the offset is below the text length. -/
theorem short_text_single_chunk_counterexample :
    CharacterTextSplitter.split ⟨4, 3⟩ "abc".toList
        = ["abc".toList, "bc".toList, "c".toList]
    ∧ CharacterTextSplitter.split ⟨4, 3⟩ "abc".toList ≠ ["abc".toList] := by
  exact ⟨by decide, by decide⟩

/-- C3 amended: a non-empty text yields exactly the single chunk `text`
when its length is at most the stride `chunk_size - chunk_overlap`
(not merely at most `chunk_size`); when the length is at most
`chunk_size` the first chunk still equals the whole text, but further
suffix chunks may follow. -/
theorem split_eq_singleton_of_length_le_stride :
    ∀ (cs co : Int), 0 ≤ co → co < cs →
    ∀ text : List Char, text ≠ [] →
      (text.length ≤ (cs - co).toNat →
        CharacterTextSplitter.split ⟨cs, co⟩ text = [text])
      ∧ (text.length ≤ cs.toNat →
        (CharacterTextSplitter.split ⟨cs, co⟩ text)[0]? = some text) := by
  intro cs co hco hlt text hne
  have hn : 0 < text.length := List.length_pos.mpr hne
  set s : Nat := (cs - co).toNat with hsdef
  have hs : 0 < s := by omega
  have hscs : s ≤ cs.toNat := by omega
  constructor
  · intro hlen
    have hceil : (text.length + s - 1) / s = 1 := by
      have h0 : 0 < (text.length + s - 1) / s :=
        (lt_ceil_iff text.length s 0 hs).mpr (by omega)
      have h1 : ¬ 1 < (text.length + s - 1) / s := by
        intro hcon
        have := (lt_ceil_iff text.length s 1 hs).mp hcon
        omega
      omega
    simp only [CharacterTextSplitter.split, pyRange, hceil]
    rw [show List.range 1 = [0] by decide]
    simp [List.take_of_length_le (le_trans hlen hscs)]
  · intro hlen
    have h0 : 0 < (text.length + s - 1) / s :=
      (lt_ceil_iff text.length s 0 hs).mpr (by omega)
    simp only [CharacterTextSplitter.split, pyRange, List.map_map]
    rw [List.getElem?_map, List.getElem?_range h0]
    simp [List.take_of_length_le hlen]

/-- Witness for `split_eq_singleton_of_length_le_stride` at
`chunk_size = 4, chunk_overlap = 1, text = "abc"` (length `3 ≤ stride 3`). -/
theorem split_eq_singleton_of_length_le_stride_witness :
    (0 ≤ (1 : Int) ∧ (1 : Int) < 4 ∧ "abc".toList ≠ []
      ∧ "abc".toList.length ≤ ((4 : Int) - 1).toNat)
    ∧ CharacterTextSplitter.split ⟨4, 1⟩ "abc".toList = ["abc".toList] :=
  ⟨⟨by decide, by decide, by decide, by decide⟩,
    (split_eq_singleton_of_length_le_stride 4 1 (by decide) (by decide)
      "abc".toList (by decide)).1 (by decide)⟩

/-- C4: `split_texts` (the spec's `split_many`) is the order-preserving
flat-map of `split` over the input texts, for every configuration. -/
theorem split_texts_eq_flat_map_split (sp : CharacterTextSplitter)
    (texts : List (List Char)) :
    sp.split_texts texts = texts.flatMap sp.split := by
  have hgen : ∀ (l : List (List Char)) (acc : List (List Char)),
      l.foldl (fun chunks t => chunks ++ sp.split t) acc
        = acc ++ l.flatMap sp.split := by
    intro l
    induction l with
    | nil => intro acc; simp
    | cons t ts ih =>
      intro acc
      simp only [List.foldl_cons, List.flatMap_cons, ih, List.append_assoc]
  simpa using hgen texts []

/-- C5: construction validates the configuration: `chunk_overlap ≥
chunk_size` is rejected at construction time with the spec's
`InvalidConfigurationError` (realised as the `assert`'s
`AssertionError`), while a valid `0 ≤ chunk_overlap < chunk_size` is
accepted with both parameters stored unchanged.  `split` itself performs
no validation, so no failure can be deferred to use. -/
theorem splitter_construction_validates_config :
    ∀ cs co : Int,
      (cs ≤ co → CharacterTextSplitter.mk? cs co
          = .error InvalidConfigurationError)
      ∧ (0 ≤ co → co < cs → CharacterTextSplitter.mk? cs co
          = .ok ⟨cs, co⟩) := by
  intro cs co
  constructor
  · intro h
    rw [CharacterTextSplitter.mk?, if_neg (by omega)]
    rfl
  · intro _ h
    rw [CharacterTextSplitter.mk?, if_pos h]

/-- Witness for `splitter_construction_validates_config` at the rejected
configuration `(4, 5)` and the accepted configuration `(4, 1)`. -/
theorem splitter_construction_validates_config_witness :
    ((4 : Int) ≤ 5
      ∧ CharacterTextSplitter.mk? 4 5 = .error InvalidConfigurationError)
    ∧ (0 ≤ (1 : Int) ∧ (1 : Int) < 4
      ∧ CharacterTextSplitter.mk? 4 1 = .ok ⟨4, 1⟩) :=
  ⟨⟨by decide, (splitter_construction_validates_config 4 5).1 (by decide)⟩,
    ⟨by decide, by decide,
      (splitter_construction_validates_config 4 1).2 (by decide) (by decide)⟩⟩

/-- C9 counterexample: with the valid configuration `chunk_size = 4`,
`chunk_overlap = 3` and text `"abc"`, the chunk lengths are `[3, 2, 1]`:
the first chunk (index 0 of 3, not the last) is already shorter than
`chunk_size`, refuting "only the last chunk may be shorter". -/
theorem chunk_length_counterexample :
    (CharacterTextSplitter.split ⟨4, 3⟩ "abc".toList).map List.length
        = [3, 2, 1]
    ∧ ¬ (∀ k (h : k < (CharacterTextSplitter.split ⟨4, 3⟩ "abc".toList).length),
        k + 1 < (CharacterTextSplitter.split ⟨4, 3⟩ "abc".toList).length →
        ((CharacterTextSplitter.split ⟨4, 3⟩ "abc".toList).get ⟨k, h⟩).length
          = (4 : Int).toNat) := by
  constructor
  · decide
  · intro hcon
    have := hcon 0 (by decide) (by decide)
    revert this
    decide

/-- C9 amended: for every valid configuration, every chunk is non-empty
and of length at most `chunk_size`; chunk `k` has length
`min chunk_size (len - k*stride)`, and any chunk shorter than
`chunk_size` extends exactly to the end of the text (with a positive
overlap several trailing chunks can be short, not only the last one). -/
theorem chunk_length_bounds :
    ∀ (cs co : Int), 0 ≤ co → co < cs →
    ∀ (text : List Char) (k : Nat) (ch : List Char),
      (CharacterTextSplitter.split ⟨cs, co⟩ text)[k]? = some ch →
      ch.length = min cs.toNat (text.length - k * (cs - co).toNat)
      ∧ ch ≠ []
      ∧ ch.length ≤ cs.toNat
      ∧ (ch.length < cs.toNat →
          k * (cs - co).toNat + ch.length = text.length) := by
  intro cs co hco hlt text k ch hch
  set s : Nat := (cs - co).toNat with hsdef
  have hs : 0 < s := by omega
  have hcs : 0 < cs.toNat := by omega
  have hkm : k < (text.length + s - 1) / s := by
    have hlen : k < (CharacterTextSplitter.split ⟨cs, co⟩ text).length := by
      rcases List.getElem?_eq_some_iff.mp hch with ⟨hlt', _⟩
      exact hlt'
    simpa [CharacterTextSplitter.split, pyRange] using hlen
  have hks : k * s < text.length := (lt_ceil_iff text.length s k hs).mp hkm
  have hch' : ch = (text.drop (k * s)).take cs.toNat := by
    have : (CharacterTextSplitter.split ⟨cs, co⟩ text)[k]?
        = some ((text.drop (k * s)).take cs.toNat) := by
      simp only [CharacterTextSplitter.split, pyRange, List.map_map]
      rw [List.getElem?_map, List.getElem?_range hkm]
      rfl
    rw [this] at hch
    exact (Option.some.injEq _ _ ▸ hch.symm)
  subst hch'
  have hlen : ((text.drop (k * s)).take cs.toNat).length
      = min cs.toNat (text.length - k * s) := by
    simp [List.length_take, List.length_drop]
  refine ⟨hlen, ?_, ?_, ?_⟩
  · rw [← List.length_pos, hlen]
    omega
  · rw [hlen]; omega
  · rw [hlen]; omega

/-- Witness for `chunk_length_bounds` at
`chunk_size = 4, chunk_overlap = 1, text = "abcdefghij", k = 3`
(the last, short chunk `"j"`). -/
theorem chunk_length_bounds_witness :
    (0 ≤ (1 : Int) ∧ (1 : Int) < 4
      ∧ (CharacterTextSplitter.split ⟨4, 1⟩ "abcdefghij".toList)[3]?
          = some "j".toList)
    ∧ ("j".toList.length
          = min (4 : Int).toNat
              ("abcdefghij".toList.length - 3 * ((4 : Int) - 1).toNat)
      ∧ "j".toList ≠ []
      ∧ "j".toList.length ≤ (4 : Int).toNat
      ∧ ("j".toList.length < (4 : Int).toNat →
          3 * ((4 : Int) - 1).toNat + "j".toList.length
            = "abcdefghij".toList.length)) :=
  ⟨⟨by decide, by decide, by decide⟩,
    chunk_length_bounds 4 1 (by decide) (by decide) "abcdefghij".toList 3
      "j".toList (by decide)⟩

/-- C6 counterexample: on a filesystem without `missing.txt`, neither
loader lets the builtin `FileNotFoundError` escape for the missing
`.txt` path: `EnhancedTextFileLoader` catches it and re-raises
`ValueError("Text file not found: ...")`, and `TextFileLoader.load`
rejects the path with its generic `ValueError` — the same error an
unsupported extension receives — because `os.path.isfile` is false. -/
theorem missing_txt_error_counterexample :
    EnhancedTextFileLoader.load_documents ⟨[], [], [], []⟩ "missing.txt" "utf-8"
        = .error (.valueError "Text file not found: missing.txt")
    ∧ raisedFileNotFound
        (EnhancedTextFileLoader.load_documents ⟨[], [], [], []⟩ "missing.txt"
          "utf-8") = false
    ∧ TextFileLoader.load ⟨[], [], [], []⟩ "missing.txt"
        = .error (.valueError
            "Provided path is neither a valid directory nor a .txt file.")
    ∧ raisedFileNotFound (TextFileLoader.load ⟨[], [], [], []⟩ "missing.txt")
        = false :=
  ⟨rfl, rfl, rfl, rfl⟩

/-- C6 amended: for every path absent from the filesystem,
`EnhancedTextFileLoader._load_txt` fails with
`ValueError("Text file not found: <path>")` — the builtin
`FileNotFoundError` is caught and converted — while `TextFileLoader.load`
on a path that is neither a directory nor an existing file fails with its
generic `ValueError`, indistinguishable from the unsupported-type
error. -/
theorem missing_txt_raises_value_error :
    ∀ (fs : FS) (path encoding : String),
      fs.files.lookup path = none →
      fs.isdir path = false →
      EnhancedTextFileLoader.loadTxt fs path encoding
          = .error (.valueError ("Text file not found: " ++ path))
      ∧ TextFileLoader.load fs path
          = .error (.valueError
              "Provided path is neither a valid directory nor a .txt file.") := by
  intro fs path encoding hnone hdir
  constructor
  · simp only [EnhancedTextFileLoader.loadTxt, hnone]
  · have hfile : fs.isfile path = false := by
      simp [FS.isfile, hnone]
    simp only [TextFileLoader.load, hdir, hfile, Bool.false_and,
      Bool.false_eq_true, if_false]

/-- Witness for `missing_txt_raises_value_error` at a filesystem holding
only `other.txt` and the missing path `gone.txt`. -/
theorem missing_txt_raises_value_error_witness :
    ((⟨[], [("other.txt", "x")], [], []⟩ : FS).files.lookup "gone.txt" = none
      ∧ (⟨[], [("other.txt", "x")], [], []⟩ : FS).isdir "gone.txt" = false)
    ∧ EnhancedTextFileLoader.loadTxt ⟨[], [("other.txt", "x")], [], []⟩
          "gone.txt" "utf-8"
        = .error (.valueError ("Text file not found: " ++ "gone.txt"))
    ∧ TextFileLoader.load ⟨[], [("other.txt", "x")], [], []⟩ "gone.txt"
        = .error (.valueError
            "Provided path is neither a valid directory nor a .txt file.") :=
  ⟨⟨rfl, rfl⟩,
    (missing_txt_raises_value_error ⟨[], [("other.txt", "x")], [], []⟩
      "gone.txt" "utf-8" rfl rfl).1,
    (missing_txt_raises_value_error ⟨[], [("other.txt", "x")], [], []⟩
      "gone.txt" "utf-8" rfl rfl).2⟩

theorem load_directory_eq_specDirectoryDocs (fs : FS) (path : String) :
    TextFileLoader.load_directory fs path = specDirectoryDocs fs path := by
  have hgen : ∀ (l : List (String × String)) (acc : List String),
      l.foldl
        (fun docs pc => if strEndsWith pc.1 ".txt" then docs ++ [pc.2] else docs)
        acc
        = acc ++ (l.filter (fun pc => strEndsWith pc.1 ".txt")).map Prod.snd := by
    intro l
    induction l with
    | nil => intro acc; simp
    | cons p ps ih =>
      intro acc
      by_cases h : strEndsWith p.1 ".txt"
      · simp [List.foldl_cons, List.filter_cons, h, ih, List.append_assoc]
      · simp [List.foldl_cons, List.filter_cons, h, ih]
  simpa [TextFileLoader.load_directory, specDirectoryDocs]
    using hgen (fs.walkFiles path) []

/-- C7 amended: `TextFileLoader.load` on a directory input succeeds and
produces exactly one document — the file's text, with no metadata
record — per `.txt` file found by the recursive walk, in filesystem
enumeration order; `EnhancedTextFileLoader.load_documents`, by contrast,
does not accept directory inputs at all (see the counterexample), so no
loader attaches `source_kind = txt` metadata to a directory load. -/
theorem directory_load_one_doc_per_txt :
    ∀ (fs : FS) (path : String), fs.isdir path = true →
      TextFileLoader.load fs path = .ok (specDirectoryDocs fs path) := by
  intro fs path hdir
  simp [TextFileLoader.load, hdir, load_directory_eq_specDirectoryDocs]

/-- Witness for `directory_load_one_doc_per_txt` at a directory `docs`
holding `docs/a.txt` ("hello") and `docs/b.txt` ("world"): the two
documents come back in enumeration order. -/
theorem directory_load_one_doc_per_txt_witness :
    (⟨["docs"], [("docs/a.txt", "hello"), ("docs/b.txt", "world")], [], []⟩
        : FS).isdir "docs" = true
    ∧ TextFileLoader.load
        ⟨["docs"], [("docs/a.txt", "hello"), ("docs/b.txt", "world")], [], []⟩
        "docs"
        = .ok (specDirectoryDocs
            ⟨["docs"], [("docs/a.txt", "hello"), ("docs/b.txt", "world")], [], []⟩
            "docs")
    ∧ specDirectoryDocs
        ⟨["docs"], [("docs/a.txt", "hello"), ("docs/b.txt", "world")], [], []⟩
        "docs" = ["hello", "world"] :=
  ⟨rfl, directory_load_one_doc_per_txt _ "docs" rfl, rfl⟩

/-- C7 counterexample: on the same filesystem,
`EnhancedTextFileLoader.load_documents` fails on the directory input
`docs` — no dispatch branch matches a directory path, so it raises
`ValueError("Unsupported file type: docs")` instead of succeeding with
one `source_kind = txt` Document per `.txt` file. -/
theorem directory_enhanced_loader_counterexample :
    (⟨["docs"], [("docs/a.txt", "hello"), ("docs/b.txt", "world")], [], []⟩
        : FS).isdir "docs" = true
    ∧ EnhancedTextFileLoader.load_documents
        ⟨["docs"], [("docs/a.txt", "hello"), ("docs/b.txt", "world")], [], []⟩
        "docs" "utf-8"
        = .error (.valueError "Unsupported file type: docs") :=
  ⟨rfl, rfl⟩

theorem stripNonempty_eq_false (s : String)
    (h : s.toList.all pyIsSpace = true) : stripNonempty s = false := by
  rw [stripNonempty, List.any_eq_false]
  intro c hc
  have := List.all_eq_true.mp h c hc
  simp [this]

theorem pdfText_eq_empty :
    ∀ (ps : List (Option String)),
      (∀ p ∈ ps, ∀ n, pdfPageFragment n p = "") →
      ∀ n, pdfText n ps = "" := by
  intro ps
  induction ps with
  | nil => intro _ n; rfl
  | cons p ps ih =>
    intro h n
    rw [pdfText, h p (List.mem_cons_self p ps) n,
      ih (fun q hq m => h q (List.mem_cons_of_mem p hq) m) (n + 1)]
    rfl

theorem loadPdf_error_of_pdfText_empty (fs : FS) (path : String) (size : Nat)
    (pages : List (Option String)) (hlk : fs.pdfs.lookup path = some (size, pages))
    (htext : pdfText 1 pages = "") :
    EnhancedTextFileLoader.loadPdf fs path = .error NoReadableTextError := by
  simp only [EnhancedTextFileLoader.loadPdf, hlk, htext]
  rfl

/-- C8: for an existing PDF all of whose pages extract to empty or
whitespace-only text (so that every page is skipped and the accumulated
text is empty), `_load_pdf` fails with the spec's `NoReadableTextError`
(realised as the wrapped `ValueError`), and in particular returns no
empty or partial Document. -/
theorem pdf_blank_pages_no_readable_text_error :
    ∀ (fs : FS) (path : String) (size : Nat) (pages : List (Option String)),
      fs.pdfs.lookup path = some (size, pages) →
      allPagesBlank pages = true →
      EnhancedTextFileLoader.loadPdf fs path = .error NoReadableTextError := by
  intro fs path size pages hlk hblank
  refine loadPdf_error_of_pdfText_empty fs path size pages hlk
    (pdfText_eq_empty pages ?_ 1)
  intro p hp n
  have hpb := List.all_eq_true.mp hblank p hp
  cases p with
  | none => rfl
  | some s =>
    have hs : s.toList.all pyIsSpace = true := by simpa using hpb
    rw [pdfPageFragment, stripNonempty_eq_false s hs]
    rfl

/-- Witness for `pdf_blank_pages_no_readable_text_error` at a PDF whose
three pages extract to `"   "`, an extraction failure, and `"\n\t"`. -/
theorem pdf_blank_pages_no_readable_text_error_witness :
    ((⟨[], [], [("blank.pdf", (7, [some "   ", none, some "\n\t"]))], []⟩
          : FS).pdfs.lookup "blank.pdf"
        = some (7, [some "   ", none, some "\n\t"])
      ∧ allPagesBlank [some "   ", none, some "\n\t"] = true)
    ∧ EnhancedTextFileLoader.loadPdf
        ⟨[], [], [("blank.pdf", (7, [some "   ", none, some "\n\t"]))], []⟩
        "blank.pdf" = .error NoReadableTextError :=
  ⟨⟨rfl, by decide⟩,
    pdf_blank_pages_no_readable_text_error _ "blank.pdf" 7 _ rfl (by decide)⟩

theorem isReadableText_eq_false_of_short (s : String) (h : s.length < 10) :
    isReadableText s = false := by
  have h' : s.toList.length < 10 := h
  simp only [isReadableText]
  rw [if_pos h']

/-- C10: `_is_readable_text` classifies every text shorter than 10
characters as unreadable regardless of its content, so every PDF page
whose extracted text is under 10 characters is skipped (its cleaned text
is no longer than the extracted text), and a PDF in which every page
extracts to fewer than 10 characters fails with the same
`NoReadableTextError` as one with no readable text at all — even when
every character is printable. -/
theorem short_text_unreadable_and_short_pdf_fails :
    (∀ s : String, s.length < 10 → isReadableText s = false)
    ∧ (∀ (fs : FS) (path : String) (size : Nat)
        (pages : List (Option String)),
        fs.pdfs.lookup path = some (size, pages) →
        allPagesShort pages = true →
        EnhancedTextFileLoader.loadPdf fs path
          = .error NoReadableTextError) := by
  constructor
  · exact isReadableText_eq_false_of_short
  · intro fs path size pages hlk hshort
    refine loadPdf_error_of_pdfText_empty fs path size pages hlk
      (pdfText_eq_empty pages ?_ 1)
    intro p hp n
    have hps := List.all_eq_true.mp hshort p hp
    cases p with
    | none => rfl
    | some s =>
      have hs : s.length < 10 := of_decide_eq_true hps
      have hclean : (cleanText s).length < 10 := by
        have hle : (cleanText s).length ≤ s.length := by
          show (s.toList.filter (fun c => c ≠ '\x00' && c ≠ '�')).length
            ≤ s.toList.length
          exact List.length_filter_le _ _
        omega
      rw [pdfPageFragment]
      cases hst : stripNonempty s with
      | false => rfl
      | true =>
        rw [if_pos rfl, isReadableText_eq_false_of_short _ hclean]
        rfl

/-- Witness for `short_text_unreadable_and_short_pdf_fails` at the short
printable text `"hi!"` and a PDF whose two pages extract to `"hi"` and
`"ok!"`. -/
theorem short_text_unreadable_and_short_pdf_fails_witness :
    ("hi!".length < 10 ∧ isReadableText "hi!" = false)
    ∧ (((⟨[], [], [("tiny.pdf", (9, [some "hi", some "ok!"]))], []⟩
            : FS).pdfs.lookup "tiny.pdf" = some (9, [some "hi", some "ok!"])
        ∧ allPagesShort [some "hi", some "ok!"] = true)
      ∧ EnhancedTextFileLoader.loadPdf
          ⟨[], [], [("tiny.pdf", (9, [some "hi", some "ok!"]))], []⟩
          "tiny.pdf" = .error NoReadableTextError) :=
  ⟨⟨by decide, short_text_unreadable_and_short_pdf_fails.1 "hi!" (by decide)⟩,
    ⟨⟨rfl, by decide⟩,
      short_text_unreadable_and_short_pdf_fails.2 _ "tiny.pdf" 9 _ rfl
        (by decide)⟩⟩
